import Mathlib

/-
Verification of the SnowTransfer request dispatcher (RequestHandler.ts).

The TypeScript source is shallowly embedded: JavaScript values that flow
through the dispatcher are modelled by the inductive `JVal`, the mutating
operations (`delete data.reason`, `delete file.file`) become pure field
operations returning the updated value, and the network is an oracle: a
list of `Response` values consumed one per send.  Promise settlement is
modelled by the `Outcome` type; the branch of `request` that re-invokes
itself on a 429/502 status returns the recursive call's promise from
inside the `new Promise` executor, which settles nothing, so that branch
is modelled by `Outcome.unsettled` while the recursive call's network
traffic is still recorded in the send trace.
-/

set_option maxHeartbeats 1000000

namespace SnowTransfer

/-- JSON-like JavaScript runtime values as they flow through the dispatcher.
Objects are insertion-ordered association lists (JS property order for the
string keys appearing here). -/
inductive JVal : Type where
  | jnull : JVal
  | jbool : Bool → JVal
  | jnum : Int → JVal
  | jstr : String → JVal
  | jarr : List JVal → JVal
  | jobj : List (String × JVal) → JVal

/-- JavaScript truthiness of a value (null, false, 0 and "" are falsy;
every object and array is truthy). -/
def truthy : JVal → Bool
  | .jnull => false
  | .jbool b => b
  | .jnum n => n != 0
  | .jstr s => s != ""
  | .jarr _ => true
  | .jobj _ => true

/-- Property access `v[k]`: `none` models JavaScript `undefined`.  Only plain
objects carry the properties used by the dispatcher. -/
def getField : JVal → String → Option JVal
  | .jobj fields, k => fields.lookup k
  | _, _ => none

/-- Truthiness of a property access, as in `if (v.k)`. -/
def truthyField (v : JVal) (k : String) : Bool :=
  match getField v k with
  | some w => truthy w
  | none => false

/-- Property access with `null` standing in for a missing field. -/
def getFieldD (v : JVal) (k : String) : JVal :=
  (getField v k).getD .jnull

/-- Is the value a string (JS `typeof v === "string"`). -/
def isJStr : JVal → Bool
  | .jstr _ => true
  | _ => false

/-- Is the value a number (JS `typeof v === "number"`). -/
def isJNum : JVal → Bool
  | .jnum _ => true
  | _ => false

/-- Is the value `null`. -/
def isJNull : JVal → Bool
  | .jnull => true
  | _ => false

/-- The underlying string of a string value (only applied under an `isJStr`
guard, where JavaScript uses the string itself). -/
def strOf : JVal → String
  | .jstr s => s
  | _ => ""

/-- JS `typeof v === "object"` (true for plain objects, arrays and null). -/
def isObjectType : JVal → Bool
  | .jobj _ => true
  | .jarr _ => true
  | .jnull => true
  | _ => false

/-- JS `delete v[k]` on an object, as the returned updated value; a no-op on
non-objects, mirroring JavaScript. -/
def deleteField (v : JVal) (k : String) : JVal :=
  match v with
  | .jobj fields => .jobj (fields.filter (fun p => !(p.1 == k)))
  | x => x

/-- Replace the value at an existing key, keeping the object's key order (the
effect on the enclosing object of mutating a nested member in place). -/
def setField (v : JVal) (k : String) (w : JVal) : JVal :=
  match v with
  | .jobj fields => .jobj (fields.map (fun p => (p.1, if p.1 == k then w else p.2)))
  | x => x

/-- The elements of an array value (used only where the source has already
established the value is an array). -/
def arrElems : JVal → List JVal
  | .jarr xs => xs
  | _ => []

/-- JS string conversion `String(v)` for the values reaching template
literals in the source.  Array elements that are `null` render as the empty
string inside the comma join, as `Array.prototype.toString` does. -/
def jsToString : JVal → String
  | .jnull => "null"
  | .jbool b => if b then "true" else "false"
  | .jnum n => toString n
  | .jstr s => s
  | .jobj _ => "[object Object]"
  | .jarr xs =>
    String.intercalate "," (xs.attach.map (fun e =>
      if isJNull e.1 then "" else jsToString e.1))
decreasing_by
  have h := List.sizeOf_lt_of_mem e.2
  simp only [JVal.jarr.sizeOf_spec]
  omega

/-- String conversion of a possibly missing value: `undefined` interpolates
as the literal text "undefined" in a template literal. -/
def jsToStringOpt : Option JVal → String
  | none => "undefined"
  | some v => jsToString v

/-- ASCII hexadecimal digit test. -/
def isHexDigitChar (c : Char) : Bool :=
  c.isDigit || (97 ≤ c.toNat && c.toNat ≤ 102) || (65 ≤ c.toNat && c.toNat ≤ 70)

/-- Rest of the character stream after a JS decimal mantissa
(`digits`, `digits . digits?` or `. digits`); `none` when no mantissa is
present. -/
def mantissaRest (cs : List Char) : Option (List Char) :=
  let p1 := cs.span (fun c => c.isDigit)
  match p1.2 with
  | '.' :: r2 =>
    let p2 := r2.span (fun c => c.isDigit)
    if p1.1.isEmpty && p2.1.isEmpty then none else some p2.2
  | _ => if p1.1.isEmpty then none else some p1.2

/-- An optional trailing JS exponent part (`e`/`E`, optional sign, digits). -/
def expPartOK : List Char → Bool
  | [] => true
  | c :: rest =>
    (c == 'e' || c == 'E') &&
      (let rest2 := match rest with
        | s :: r2 => if s == '+' || s == '-' then r2 else s :: r2
        | [] => []
      !rest2.isEmpty && rest2.all (fun d => d.isDigit))

/-- A full JS decimal numeric literal. -/
def decimalLit (cs : List Char) : Bool :=
  match mantissaRest cs with
  | none => false
  | some rest => expPartOK rest

/-- Model of `!isNaN(Number(k))` for a string key: the whitespace-trimmed
string is empty (Number("") is 0), or parses as a JS numeric literal
(optionally signed decimal or Infinity, or unsigned 0x/0o/0b forms).
`String.trim` approximates the JS whitespace set. -/
def jsIsNumericString (s : String) : Bool :=
  let t := s.trim
  if t == "" then true
  else
    let cs := t.toList
    let core := fun (l : List Char) => l == "Infinity".toList || decimalLit l
    match cs with
    | '0' :: c :: r =>
      if c == 'x' || c == 'X' then !r.isEmpty && r.all isHexDigitChar
      else if c == 'o' || c == 'O' then !r.isEmpty && r.all (fun d => 48 ≤ d.toNat && d.toNat ≤ 55)
      else if c == 'b' || c == 'B' then !r.isEmpty && r.all (fun d => d == '0' || d == '1')
      else core cs
    | c :: r => if c == '+' || c == '-' then core r else core cs
    | [] => false

/-- Key-path extension from `DiscordAPIError.flattenErrors`:
`key ? (isNaN(Number(k)) ? key.k : key[k]) : k`. -/
def childKey (key k : String) : String :=
  if key == "" then k
  else if jsIsNumericString k then key ++ "[" ++ k ++ "]"
  else key ++ "." ++ k

/-- One element of `v._errors.map(e => e.message)` as it is rendered by
`Array.prototype.join`: null and undefined join as the empty string. -/
def joinElemString : Option JVal → String
  | none => ""
  | some .jnull => ""
  | some w => jsToString w

/-- The joined error messages `v._errors.map(e => e.message).join(" ")`.
The source only reaches this with `v._errors` an array (a truthy non-array
would make the JavaScript throw a TypeError; such malformed values are
outside the modelled domain). -/
def joinedErrorMessages (v : JVal) : String :=
  String.intercalate " " ((arrElems (getFieldD v "_errors")).map
    (fun e => joinElemString (getField e "message")))

/-- The rendering `` `${v.code ? `${v.code}: ` : ""}${v.message}`.trim() ``
of a nested object carrying `code` or `message`. -/
def renderCodeMessage (v : JVal) : String :=
  ((if truthyField v "code" then jsToStringOpt (getField v "code") ++ ": " else "")
    ++ jsToStringOpt (getField v "message")).trim

mutual

/-- The body of the `for (const [k, v] of Object.entries(obj))` loop of
`DiscordAPIError.flattenErrors`, iterating an object's entries with the
running `messages` accumulator (`push`/`concat` in the source). -/
def flattenEntries : List (String × JVal) → String → List String → List String
  | [], _, messages => messages
  | (k, v) :: rest, key, messages =>
    if k == "message" then flattenEntries rest key messages
    else
      if truthyField v "_errors" then
        flattenEntries rest key (messages ++ [childKey key k ++ ": " ++ joinedErrorMessages v])
      else if truthyField v "code" || truthyField v "message" then
        flattenEntries rest key (messages ++ [renderCodeMessage v])
      else if isJStr v then
        flattenEntries rest key (messages ++ [strOf v])
      else
        flattenEntries rest key (messages ++ flattenVal v (childKey key k))
termination_by l _ _ => sizeOf l
decreasing_by all_goals simp_wf <;> omega

/-- The same loop when `Object.entries` iterates an array: keys are the
decimal indices, in order.  (`toString i` never equals "message"; the guard
is kept to mirror the loop body exactly.) -/
def flattenArr : List JVal → Nat → String → List String → List String
  | [], _, _, messages => messages
  | v :: rest, i, key, messages =>
    if toString i == "message" then flattenArr rest (i + 1) key messages
    else
      if truthyField v "_errors" then
        flattenArr rest (i + 1) key (messages ++ [childKey key (toString i) ++ ": " ++ joinedErrorMessages v])
      else if truthyField v "code" || truthyField v "message" then
        flattenArr rest (i + 1) key (messages ++ [renderCodeMessage v])
      else if isJStr v then
        flattenArr rest (i + 1) key (messages ++ [strOf v])
      else
        flattenArr rest (i + 1) key (messages ++ flattenVal v (childKey key (toString i)))
termination_by xs _ _ _ => sizeOf xs
decreasing_by all_goals simp_wf <;> omega

/-- Recursive entry `this.flattenErrors(v, newKey)`: `Object.entries` of a
plain object iterates its fields, of an array its indexed elements, and of
numbers/booleans yields nothing.  (A `null` reaching the recursive call
would throw in JavaScript; a string never reaches it because the string
branch fires first; neither case carries claim-relevant behavior.) -/
def flattenVal : JVal → String → List String
  | .jobj fields, key => flattenEntries fields key []
  | .jarr xs, key => flattenArr xs 0 key []
  | _, _ => []
termination_by v _ => sizeOf v
decreasing_by all_goals simp_wf

end

/-- The function `DiscordAPIError.flattenErrors(obj, key)` from the source. -/
def flattenErrors (obj : JVal) (key : String) : List String :=
  flattenVal obj key

mutual

/-- Modelled from the spec: the per-entry rendering of the error-flattening
walk, stated as the lines contributed by each entry in key order — skip a
key literally named "message"; a nested object carrying an `_errors` array
renders as the dotted/bracketed key path followed by the entries' messages
joined with spaces; a nested object carrying `code` or `message` renders as
"<code>: <message>" with the code omitted if absent; a plain string value is
taken verbatim; otherwise recurse under the extended key path. -/
def specFlattenEntries : List (String × JVal) → String → List String
  | [], _ => []
  | (k, v) :: rest, path =>
    (if k == "message" then []
     else if truthyField v "_errors" then [childKey path k ++ ": " ++ joinedErrorMessages v]
     else if truthyField v "code" || truthyField v "message" then [renderCodeMessage v]
     else if isJStr v then [strOf v]
     else specFlattenVal v (childKey path k))
      ++ specFlattenEntries rest path
termination_by l _ => sizeOf l
decreasing_by all_goals simp_wf <;> omega

/-- Modelled from the spec: the walk over an array's elements, keyed by
their decimal indices. -/
def specFlattenArr : List JVal → Nat → String → List String
  | [], _, _ => []
  | v :: rest, i, path =>
    (if toString i == "message" then []
     else if truthyField v "_errors" then [childKey path (toString i) ++ ": " ++ joinedErrorMessages v]
     else if truthyField v "code" || truthyField v "message" then [renderCodeMessage v]
     else if isJStr v then [strOf v]
     else specFlattenVal v (childKey path (toString i)))
      ++ specFlattenArr rest (i + 1) path
termination_by xs _ _ => sizeOf xs
decreasing_by all_goals simp_wf <;> omega

/-- Modelled from the spec: recursing into a nested value walks an object's
keys or an array's indexed elements; other values contribute nothing. -/
def specFlattenVal : JVal → String → List String
  | .jobj fields, path => specFlattenEntries fields path
  | .jarr xs, path => specFlattenArr xs 0 path
  | _, _ => []
termination_by v _ => sizeOf v
decreasing_by all_goals simp_wf

end

/-- Modelled from the spec: the lines of the flattening walk, in key order. -/
def flattenErrorsSpec (obj : JVal) (path : String) : List String :=
  specFlattenVal obj path

/-- Truthiness of a possibly missing value. -/
def truthyOpt : Option JVal → Bool
  | none => false
  | some v => truthy v

/-- The `message` computed by the `DiscordAPIError` constructor:
flatten `error.errors || error`, join the lines with newlines, and combine
with the top-level `message` field by
`error.message && flattened ? message + newline + flattened : message || flattened`
(a non-string top-level `message` is rendered to text, as it is when the
resulting `Error`'s message is displayed). -/
def discordAPIErrorMessage (error : JVal) : String :=
  let src := match getField error "errors" with
    | some e => if truthy e then e else error
    | none => error
  let flattened := String.intercalate "\n" (flattenErrors src "")
  let msg := getField error "message"
  if truthyOpt msg && flattened != "" then jsToStringOpt msg ++ "\n" ++ flattened
  else if truthyOpt msg then jsToStringOpt msg
  else flattened

/-- Modelled from the spec: all resulting lines are newline-joined and
appended to the top-level `message` field — if both exist, separated by a
newline; if only one exists, use whichever is present. -/
def discordAPIErrorMessageSpec (error : JVal) : String :=
  let src := match getField error "errors" with
    | some e => if truthy e then e else error
    | none => error
  let flattened := String.intercalate "\n" (flattenErrorsSpec src "")
  let msg := getField error "message"
  if truthyOpt msg && flattened != "" then jsToStringOpt msg ++ "\n" ++ flattened
  else if truthyOpt msg then jsToStringOpt msg
  else flattened

/-- The accumulator-passing loop model and the per-entry spec model produce
the same lines, simultaneously for entry lists, arrays and nested values,
by strong induction on size. -/
theorem flatten_models_agree_aux (n : Nat) :
    (∀ l key messages, sizeOf l ≤ n →
      flattenEntries l key messages = messages ++ specFlattenEntries l key) ∧
    (∀ xs i key messages, sizeOf xs ≤ n →
      flattenArr xs i key messages = messages ++ specFlattenArr xs i key) ∧
    (∀ v key, sizeOf v ≤ n → flattenVal v key = specFlattenVal v key) := by
  induction n using Nat.strong_induction_on with
  | _ n ih =>
    refine ⟨?_, ?_, ?_⟩
    · intro l key messages hle
      cases l with
      | nil => simp [flattenEntries, specFlattenEntries]
      | cons hd rest =>
        obtain ⟨k, v⟩ := hd
        have hszr : sizeOf rest < n := by simp at hle; omega
        have hszv : sizeOf v < n := by simp at hle; omega
        have ihr : ∀ m, flattenEntries rest key m = m ++ specFlattenEntries rest key :=
          fun m => (ih _ hszr).1 rest key m (le_refl _)
        have ihv : ∀ kk, flattenVal v kk = specFlattenVal v kk :=
          fun kk => (ih _ hszv).2.2 v kk (le_refl _)
        rw [flattenEntries, specFlattenEntries]
        by_cases h1 : (k == "message") = true
        · simp [h1, ihr]
        · by_cases h2 : truthyField v "_errors" = true
          · simp [h1, h2, ihr]
          · by_cases h3 : (truthyField v "code" || truthyField v "message") = true
            · simp [h1, h2, h3, ihr]
            · by_cases h4 : isJStr v = true
              · simp [h1, h2, h3, h4, ihr]
              · simp [h1, h2, h3, h4, ihr, ihv]
    · intro xs i key messages hle
      cases xs with
      | nil => simp [flattenArr, specFlattenArr]
      | cons v rest =>
        have hszr : sizeOf rest < n := by simp at hle; omega
        have hszv : sizeOf v < n := by simp at hle; omega
        have ihr : ∀ j m, flattenArr rest j key m = m ++ specFlattenArr rest j key :=
          fun j m => (ih _ hszr).2.1 rest j key m (le_refl _)
        have ihv : ∀ kk, flattenVal v kk = specFlattenVal v kk :=
          fun kk => (ih _ hszv).2.2 v kk (le_refl _)
        rw [flattenArr, specFlattenArr]
        by_cases h1 : (toString i == "message") = true
        · simp [h1, ihr]
        · by_cases h2 : truthyField v "_errors" = true
          · simp [h1, h2, ihr]
          · by_cases h3 : (truthyField v "code" || truthyField v "message") = true
            · simp [h1, h2, h3, ihr]
            · by_cases h4 : isJStr v = true
              · simp [h1, h2, h3, h4, ihr]
              · simp [h1, h2, h3, h4, ihr, ihv]
    · intro v key hle
      cases v with
      | jobj fields =>
        have hsz : sizeOf fields < n := by simp at hle; omega
        rw [flattenVal, specFlattenVal]
        exact (ih _ hsz).1 fields key [] (le_refl _)
      | jarr xs =>
        have hsz : sizeOf xs < n := by simp at hle; omega
        rw [flattenVal, specFlattenVal]
        exact (ih _ hsz).2.1 xs 0 key [] (le_refl _)
      | jnull => simp [flattenVal, specFlattenVal]
      | jbool b => simp [flattenVal, specFlattenVal]
      | jnum m => simp [flattenVal, specFlattenVal]
      | jstr s => simp [flattenVal, specFlattenVal]

/-- C6: the error-message flattening walks the object's keys, skips a key
literally named "message", renders a nested object carrying an `_errors`
array as the dotted/bracketed key path (numeric keys as `parent[index]`,
non-numeric as `parent.key`) followed by the entries' messages joined with
spaces, renders a nested object carrying `code` or `message` as
"<code>: <message>" with the code omitted if absent, takes a plain string
value verbatim, recurses otherwise; the resulting lines are newline-joined
and appended to the top-level `message` field (separated by a newline if
both exist, or whichever is present if only one exists).  Stated as: the
model transcribed from the source loop coincides, on every value and key
path, with the model transcribed sentence-by-sentence from the spec, both
for the flattening walk and for the constructor's message composition. -/
theorem flattenErrors_matches_spec :
    (∀ obj key, flattenErrors obj key = flattenErrorsSpec obj key) ∧
    (∀ e, discordAPIErrorMessage e = discordAPIErrorMessageSpec e) := by
  have base : ∀ obj key, flattenErrors obj key = flattenErrorsSpec obj key := by
    intro obj key
    exact (flatten_models_agree_aux (sizeOf obj)).2.2 obj key (le_refl _)
  refine ⟨base, ?_⟩
  intro e
  rw [discordAPIErrorMessage, discordAPIErrorMessageSpec]
  simp only [base]

/-- Uppercase hexadecimal digit for a value below 16. -/
def hexDigitChar (n : Nat) : Char :=
  if n < 10 then Char.ofNat (48 + n) else Char.ofNat (55 + n)

/-- The UTF-8 bytes of a Unicode code point. -/
def utf8Bytes (n : Nat) : List Nat :=
  if n < 128 then [n]
  else if n < 2048 then [192 + n / 64, 128 + n % 64]
  else if n < 65536 then [224 + n / 4096, 128 + (n / 64) % 64, 128 + n % 64]
  else [240 + n / 262144, 128 + (n / 4096) % 64, 128 + (n / 64) % 64, 128 + n % 64]

/-- The characters `encodeURIComponent` leaves unescaped:
letters, digits and - _ . ! ~ * ' ( ). -/
def isUnescapedURIChar (c : Char) : Bool :=
  c.isAlpha || c.isDigit ||
  c == '-' || c == '_' || c == '.' || c == '!' || c == '~' || c == '*' ||
  c.toNat == 39 || c == '(' || c == ')'

/-- Percent-encoding of one character as `encodeURIComponent` performs it:
unescaped characters stand for themselves, every other character becomes
the %HH form of each of its UTF-8 bytes, with uppercase hex digits. -/
def percentEncodeChar (c : Char) : String :=
  if isUnescapedURIChar c then String.singleton c
  else String.join ((utf8Bytes c.toNat).map (fun b =>
    "%" ++ String.singleton (hexDigitChar (b / 16)) ++ String.singleton (hexDigitChar (b % 16))))

/-- JavaScript `encodeURIComponent`. -/
def encodeURIComponent (s : String) : String :=
  String.join (s.toList.map percentEncodeChar)

/-- One entry of the multipart form built by `_multiPartRequest`.
`jsonPart field v` stands for `form.append(field, JSON.stringify(v))`: the
entry carries the JSON value whose serialization is appended, so "the parsed
value of the field" is `v` itself. -/
inductive FormEntry : Type where
  | filePart (field : String) (content : JVal) (filename : String)
  | jsonPart (field : String) (v : JVal)

/-- The body attached to an outbound HTTP request: a JSON-encoded object
(`req.body(data, "json")`), a raw body (`req.body(data)` on a non-object),
or a multipart form buffer. -/
inductive ReqBody : Type where
  | jsonBody (v : JVal)
  | rawBody (v : JVal)
  | formBody (entries : List FormEntry)

/-- One outbound HTTP request as handed to the transport: path, method,
headers, query parameters (if `req.query(data)` was used), body (if any)
and the explicit timeout (set only by the multipart sender). -/
structure SentReq : Type where
  path : String
  method : String
  headers : List (String × String)
  query : Option JVal
  body : Option ReqBody
  timeoutMs : Option Nat

/-- JavaScript object-spread merge `{...base, ...extra}` of two header
maps: keys of `extra` override those of `base`, and lookups are by key. -/
def mergeJS (base extra : List (String × String)) : List (String × String) :=
  base.filter (fun p => (extra.lookup p.1).isNone) ++ extra

/-- The only locally raised sender error: the retry cap. -/
inductive LocalErr : Type where
  | maxRetry

/-- Is the sender result a successfully built request. -/
def senderOk : Except LocalErr (SentReq × JVal) → Bool
  | .ok _ => true
  | .error _ => false

/-- The request built by `RequestHandler._request` past its retry-cap
guard: if the payload is a non-string with a truthy `reason` field, that
field's value is URL-encoded into the `X-Audit-Log-Reason` header and
deleted from the payload; the (possibly stripped) payload then travels as
query parameters when `useParams` is set, else as a JSON body for a truthy
object, a raw body for another truthy value, and no body otherwise.  The
second component is the payload object after the in-place
`delete data.reason`, which the caller's `data` binding keeps referring
to. -/
def _requestBuilt (defaultHeaders : List (String × String)) (endpoint method : String)
    (data : JVal) (useParams : Bool) : SentReq × JVal :=
  let hasReason := !isJStr data && truthyField data "reason"
  let extraHeaders :=
    if hasReason then
      [("X-Audit-Log-Reason", encodeURIComponent (jsToStringOpt (getField data "reason")))]
    else []
  let data' := if hasReason then deleteField data "reason" else data
  let hs := mergeJS defaultHeaders extraHeaders
  if useParams then
    ({ path := endpoint, method := method, headers := hs,
       query := some data', body := none, timeoutMs := none }, data')
  else
    let b : Option ReqBody :=
      if truthy data' && isObjectType data' then some (.jsonBody data')
      else if truthy data' then some (.rawBody data')
      else none
    ({ path := endpoint, method := method, headers := hs,
       query := none, body := b, timeoutMs := none }, data')

/-- The sender `RequestHandler._request` for JSON requests.  Refuses with the local
"Max amount of rety attempts reached" error when `amount >= 3`, before
building any request; otherwise builds and issues `_requestBuilt`. -/
def _request (defaultHeaders : List (String × String)) (endpoint method : String)
    (data : JVal) (useParams : Bool) (amount : Nat) : Except LocalErr (SentReq × JVal) :=
  if 3 ≤ amount then .error .maxRetry
  else .ok (_requestBuilt defaultHeaders endpoint method data useParams)

/-- The form request built by `RequestHandler._multiPartRequest` past its
retry-cap guard: when `data.files` is an array whose every element has a
truthy `name` and a truthy `file`, each file is appended to the form as
`files[i]` with its declared filename and the raw `file` reference is then
deleted from the element in place; the remaining payload is serialized as
the `payload_json` form field.  The form boundary headers returned by
`form.getHeaders()` are abstracted to a content-type entry; they are merged
into a fresh copy of the default headers.  The second component is the
payload as left after the in-place deletions. -/
def _multiPartBuilt (defaultHeaders : List (String × String)) (endpoint method : String)
    (data : JVal) : SentReq × JVal :=
  let p :=
    match getField data "files" with
    | some (.jarr fs) =>
      if fs.all (fun f => truthyField f "name" && truthyField f "file") then
        (fs.enum.map (fun (q : Nat × JVal) =>
          FormEntry.filePart ("files[" ++ toString q.1 ++ "]")
            (getFieldD q.2 "file") (jsToStringOpt (getField q.2 "name"))),
         setField data "files" (.jarr (fs.map (fun f => deleteField f "file"))))
      else ([], data)
    | _ => ([], data)
  let form := p.1 ++ [FormEntry.jsonPart "payload_json" p.2]
  let hs := mergeJS defaultHeaders [("content-type", "multipart/form-data")]
  ({ path := endpoint, method := method, headers := hs, query := none,
     body := some (.formBody form), timeoutMs := some 15000 }, p.2)

/-- The sender `RequestHandler._multiPartRequest` for multipart requests.  Refuses with
the local "Max amount of rety attempts reached" error when `amount >= 3`,
before building any request; otherwise builds and issues
`_multiPartBuilt`. -/
def _multiPartRequest (defaultHeaders : List (String × String)) (endpoint method : String)
    (data : JVal) (amount : Nat) : Except LocalErr (SentReq × JVal) :=
  if 3 ≤ amount then .error .maxRetry
  else .ok (_multiPartBuilt defaultHeaders endpoint method data)

/-- The query/body selector computed at the dispatch call site:
`method === "get" || endpoint.includes("/bans") || endpoint.includes("/prune")`.
`includes` is substring containment. -/
def includesStr (s pat : String) : Bool :=
  2 ≤ (s.splitOn pat).length

/-- The `useParams` argument `request` passes to `_request`. -/
def useParamsFor (endpoint method : String) : Bool :=
  method == "get" || includesStr endpoint "/bans" || includesStr endpoint "/prune"

/-- Modelled from the spec: `Constants.OK_STATUS_CODES` is imported from a
file that is not among the sources; the spec describes the success set as
the non-{200..299} complement being failures, so a success status is one in
200..299. -/
def okStatus (s : Nat) : Bool :=
  200 ≤ s && s ≤ 299

/-- The response body as consumed by the dispatcher: no body at all, a body
whose text does not parse as JSON (`JSON.parse` throws — an empty buffer is
truthy in JavaScript and lands here too), or a body parsing to a value. -/
inductive RespBody : Type where
  | absent
  | unparseable
  | parsedJson (v : JVal)

/-- One HTTP response handed back by the network oracle.  `statusCode = 0`
models a falsy `request.statusCode`; `contentTypeJson` is whether the
content-type header starts with "application/json". -/
structure Response : Type where
  statusCode : Nat
  contentTypeJson : Bool
  body : RespBody

/-- The normalized `DiscordAPIError` built from a JSON error body. -/
structure APIError : Type where
  path : String
  method : String
  code : Option JVal
  httpStatus : Nat
  message : String

/-- The `DiscordAPIError` constructor applied to a parsed JSON error body. -/
def mkAPIError (endpoint : String) (errBody : JVal) (method : String) (status : Nat) : APIError :=
  { path := endpoint, method := method, code := getField errBody "code",
    httpStatus := status, message := discordAPIErrorMessage errBody }

/-- Settlement of the promise returned by one `request` call.
`unsettled` is the 429/502 branch: the executor returns the recursive
call's promise without resolving or rejecting its own, so the outer promise
never settles even though the recursion keeps running.  `noResponse` is a
model artifact: the network oracle ran out of responses while a send was in
flight.  `rejectedApiText` is a terminal failure whose body was not
JSON-typed (the error carries the raw body text); `rejectedErrorBodyParse`
is the `SyntaxError` thrown by `await request.json()` on a JSON-typed but
unparseable failure body. -/
inductive Outcome : Type where
  | resolvedJson (v : JVal)
  | resolvedUndefined
  | rejectedForbiddenDataType
  | rejectedMaxRetry
  | rejectedApi (e : APIError)
  | rejectedApiText (status : Nat)
  | rejectedErrorBodyParse (status : Nat)
  | unsettled
  | noResponse

/-- Classification of one non-success, non-recoverable response, as in the
`new DiscordAPIError(...)` construction: a JSON content-type gives the
normalized error from the parsed body (or a parse rejection when the body
does not parse); any other content-type passes the raw body text to the
constructor. -/
def apiFailureOutcome (endpoint method : String) (r : Response) : Outcome :=
  if r.contentTypeJson then
    match r.body with
    | .parsedJson v => .rejectedApi (mkAPIError endpoint v method r.statusCode)
    | _ => .rejectedErrorBodyParse r.statusCode
  else .rejectedApiText r.statusCode

/-- The dispatch loop `RequestHandler.request`.  A numeric payload is
first coerced to its string form.  An unknown `dataType` rejects with the
local "Forbidden dataType" error before any send.  Otherwise the sender for
the data kind builds and issues one HTTP call (the `if/else if` chain of
the source is expressed by selecting the sender after a membership test);
its response is classified: a non-success status outside {429, 502} rejects
with the normalized error; a 429 or 502 re-invokes `request` with
`amount++` — a post-increment, so the recursive call receives the *old*
`amount`, and the surrounding `return` inside the promise executor settles
nothing, leaving the outer promise unsettled while the recursion's sends
still happen; a success emits done and resolves with the JSON-parsed body,
or with `undefined` when there is no body or parsing fails.  The result
pairs the settlement of this call's promise with the trace of all HTTP
requests handed to the transport, the recursion's included. -/
def request (defaultHeaders : List (String × String)) (endpoint method dataType : String)
    (data0 : JVal) (amount : Nat) (responses : List Response) : Outcome × List SentReq :=
  let data := if isJNum data0 then .jstr (jsToString data0) else data0
  if dataType == "json" || dataType == "multipart" then
    let sentE :=
      if dataType == "json" then
        _request defaultHeaders endpoint method data (useParamsFor endpoint method) amount
      else _multiPartRequest defaultHeaders endpoint method data amount
    match sentE with
    | .error .maxRetry => (.rejectedMaxRetry, [])
    | .ok (sent, data') =>
      match responses with
      | [] => (.noResponse, [sent])
      | r :: rest =>
        if r.statusCode != 0 && !okStatus r.statusCode
            && r.statusCode != 429 && r.statusCode != 502 then
          (apiFailureOutcome endpoint method r, [sent])
        else if r.statusCode != 0 && (r.statusCode == 429 || r.statusCode == 502) then
          (.unsettled, sent :: (request defaultHeaders endpoint method dataType data' amount rest).2)
        else
          match r.body with
          | .absent => (.resolvedUndefined, [sent])
          | .unparseable => (.resolvedUndefined, [sent])
          | .parsedJson v => (.resolvedJson v, [sent])
  else (.rejectedForbiddenDataType, [])

/-- A 429 (rate-limited) response with no body. -/
def resp429 : Response :=
  { statusCode := 429, contentTypeJson := false, body := .absent }

/-- A 200 response carrying the gateway JSON body. -/
def resp200 : Response :=
  { statusCode := 200, contentTypeJson := true,
    body := .parsedJson (.jobj [("url", .jstr "wss://x")]) }

/-- C4: each leaf sender raises the local "max retry attempts" error
exactly when the attempt counter has reached 3, before any request is
built (the error branch of the model carries no `SentReq`, so no network
call exists on that path); below 3 the senders always produce a request. -/
theorem senders_enforce_retry_cap (defaultHeaders : List (String × String))
    (endpoint method : String) (data : JVal) (useParams : Bool) (amount : Nat) :
    (3 ≤ amount →
      _request defaultHeaders endpoint method data useParams amount = .error .maxRetry ∧
      _multiPartRequest defaultHeaders endpoint method data amount = .error .maxRetry) ∧
    (amount < 3 →
      senderOk (_request defaultHeaders endpoint method data useParams amount) = true ∧
      senderOk (_multiPartRequest defaultHeaders endpoint method data amount) = true) := by
  constructor
  · intro h
    constructor <;> simp [_request, _multiPartRequest, h]
  · intro h
    have h3 : ¬ (3 ≤ amount) := by omega
    constructor <;> simp [_request, _multiPartRequest, h3, senderOk]

/-- Witness for C4 at attempt counters 3 and 2. -/
theorem senders_enforce_retry_cap_witness :
    (_request [] "/gateway" "get" (.jobj []) true 3 = .error .maxRetry ∧
     _multiPartRequest [] "/gateway" "get" (.jobj []) 3 = .error .maxRetry) ∧
    (senderOk (_request [] "/gateway" "get" (.jobj []) true 2) = true ∧
     senderOk (_multiPartRequest [] "/gateway" "get" (.jobj []) 2) = true) :=
  ⟨(senders_enforce_retry_cap [] "/gateway" "get" (.jobj []) true 3).1 (by decide),
   (senders_enforce_retry_cap [] "/gateway" "get" (.jobj []) true 2).2 (by decide)⟩

/-- C5: a dispatch with a `dataType` that is neither "json" nor "multipart"
rejects with the local "Forbidden dataType" error and issues no network
call (an empty send trace), regardless of the oracle. -/
theorem forbidden_dataType_rejects_locally (defaultHeaders : List (String × String))
    (endpoint method dataType : String) (data : JVal) (amount : Nat)
    (responses : List Response)
    (h1 : dataType ≠ "json") (h2 : dataType ≠ "multipart") :
    request defaultHeaders endpoint method dataType data amount responses =
      (.rejectedForbiddenDataType, []) := by
  rw [request]
  have b1 : (dataType == "json") = false := by simp [h1]
  have b2 : (dataType == "multipart") = false := by simp [h2]
  simp [b1, b2]

/-- Witness for C5 at `dataType = "xml"`. -/
theorem forbidden_dataType_rejects_locally_witness :
    request [] "/gateway" "get" "xml" (.jobj []) 0 [] =
      (.rejectedForbiddenDataType, []) :=
  forbidden_dataType_rejects_locally [] "/gateway" "get" "xml" (.jobj []) 0 []
    (by decide) (by decide)

/-- C1 fails on the code: the retry line passes `amount++`, a
post-increment whose value is the old counter, so every re-dispatch runs
with the original attempt counter.  With five consecutive 429 responses
the dispatcher hands six requests to the transport — the fourth, fifth and
sixth attempts are real network calls instead of the claimed local
failure, and the "max retry attempts" rejection never occurs. -/
theorem retry_passes_stale_attempt_counter :
    (request [] "/gateway" "get" "json" (.jobj []) 0 (List.replicate 5 resp429)).2.length = 6 ∧
    (request [] "/gateway" "get" "json" (.jobj []) 0 (List.replicate 5 resp429)).1 ≠
      Outcome.rejectedMaxRetry := by
  constructor
  · rfl
  · intro h
    have hv : (request [] "/gateway" "get" "json" (.jobj []) 0 (List.replicate 5 resp429)).1 =
        Outcome.unsettled := rfl
    rw [hv] at h
    exact Outcome.noConfusion h

/-- C2 fails on the code: on a 429 (or 502) response the promise executor
`return`s the recursive `this.request(...)` call, which settles nothing —
the outer promise never resolves or rejects.  With responses 429 then 200
the call is left unsettled (while both network sends still happen), so not
every dispatch reaches one of the four terminal outcomes. -/
theorem recoverable_status_leaves_promise_unsettled :
    (request [] "/gateway" "get" "json" (.jobj []) 0 [resp429, resp200]).1 =
      Outcome.unsettled ∧
    (request [] "/gateway" "get" "json" (.jobj []) 0 [resp429, resp200]).2.length = 2 :=
  ⟨rfl, rfl⟩

/-- Boolean string equality is symmetric. -/
theorem beq_comm_str (a k : String) : (a == k) = (k == a) := by
  cases h : a == k
  · have h1 : ¬ a = k := by simpa using h
    have h2 : ¬ k = a := fun hh => h1 hh.symm
    simp [h2]
  · have h1 : a = k := by simpa using h
    simp [h1]

/-- Looking up a key removed by the delete filter finds nothing. -/
theorem lookup_filter_ne (fields : List (String × JVal)) (k : String) :
    (fields.filter (fun p => !(p.1 == k))).lookup k = none := by
  induction fields with
  | nil => rfl
  | cons p rest ih =>
    obtain ⟨pk, pv⟩ := p
    rw [List.filter_cons]
    by_cases h : pk = k
    · simp [h, ih]
    · have h1 : (pk == k) = false := by simp [h]
      have h2 : (k == pk) = false := by rw [← beq_comm_str]; exact h1
      simp [h1, h2, List.lookup, ih]

/-- Deleting a field removes it from later lookups. -/
theorem getField_deleteField (v : JVal) (k : String) :
    getField (deleteField v k) k = none := by
  cases v with
  | jobj fields => simpa [deleteField, getField] using lookup_filter_ne fields k
  | jnull => rfl
  | jbool b => rfl
  | jnum n => rfl
  | jstr s => rfl
  | jarr xs => rfl

/-- Replacing the value at a present key is seen by a later lookup. -/
theorem lookup_map_set (fields : List (String × JVal)) (k : String) (w : JVal)
    (h : (List.lookup k fields).isSome = true) :
    (fields.map (fun p => (p.1, if p.1 == k then w else p.2))).lookup k = some w := by
  induction fields with
  | nil => simp [List.lookup] at h
  | cons p rest ih =>
    obtain ⟨pk, pv⟩ := p
    by_cases hk : pk = k
    · subst hk
      rw [List.map_cons]
      simp [List.lookup]
    · have h1 : (pk == k) = false := by simp [hk]
      have h2 : (k == pk) = false := by rw [← beq_comm_str]; exact h1
      simp only [List.lookup, h2] at h
      rw [List.map_cons]
      simp only [List.lookup, h2]
      exact ih h

/-- Setting a present key is seen by a later field access. -/
theorem getField_setField (v : JVal) (k : String) (w : JVal)
    (h : (getField v k).isSome = true) :
    getField (setField v k w) k = some w := by
  cases v with
  | jobj fields =>
    simpa [getField, setField] using lookup_map_set fields k w (by simpa [getField] using h)
  | jnull => simp [getField] at h
  | jbool b => simp [getField] at h
  | jnum n => simp [getField] at h
  | jstr s => simp [getField] at h
  | jarr xs => simp [getField] at h

/-- A key present in the spread's right operand wins the merged lookup. -/
theorem mergeJS_lookup_extra (base extra : List (String × String)) (k v : String)
    (h : List.lookup k extra = some v) :
    (mergeJS base extra).lookup k = some v := by
  induction base with
  | nil => simpa [mergeJS]
  | cons p base ih =>
    obtain ⟨pk, pv⟩ := p
    rw [mergeJS, List.filter_cons]
    rw [mergeJS] at ih
    by_cases hp : ((List.lookup pk extra).isNone) = true
    · have hne : (k == pk) = false := by
        by_cases hpe : pk = k
        · subst hpe
          rw [h] at hp
          simp at hp
        · have : ¬ k = pk := fun hh => hpe hh.symm
          simp [this]
      simp [hp, List.lookup, hne, ih]
    · have hp' : ((List.lookup pk extra).isNone) = false := by simpa using hp
      simp [hp', ih]

/-- C3 fails on the code for the multipart kind: a multipart payload with a
`reason` field keeps it — the whole payload, `reason` included, lands in the
`payload_json` form field, and no `X-Audit-Log-Reason` header is set.  Only
the JSON sender extracts the reason. -/
theorem multipart_reason_not_extracted :
    (_multiPartRequest [] "/channels/1/messages" "post"
        (.jobj [("reason", .jstr "spam"), ("content", .jstr "hi")]) 0).map
      (fun p => (p.1.headers.lookup "X-Audit-Log-Reason", p.1.body)) =
    .ok (none, some (.formBody [FormEntry.jsonPart "payload_json"
      (.jobj [("reason", .jstr "spam"), ("content", .jstr "hi")])])) := rfl

/-- C3 as amended: for every JSON-kind send whose payload carries a truthy
`reason` field (such a payload is necessarily a non-string object), the
reason's value appears URL-encoded in the `X-Audit-Log-Reason` header, the
field is deleted from the payload before it is sent, and whatever travels as
query data or body is the stripped payload; the multipart sender performs no
such extraction. -/
theorem json_reason_moved_to_audit_header (defaultHeaders : List (String × String))
    (endpoint method : String) (data : JVal) (useParams : Bool) (amount : Nat)
    (h3 : amount < 3) (hr : truthyField data "reason" = true) :
    ∃ sent data',
      _request defaultHeaders endpoint method data useParams amount = .ok (sent, data') ∧
      sent.headers.lookup "X-Audit-Log-Reason" =
        some (encodeURIComponent (jsToStringOpt (getField data "reason"))) ∧
      getField data' "reason" = none ∧
      (sent.query = none ∨ sent.query = some data') ∧
      (sent.body = none ∨ sent.body = some (.jsonBody data') ∨
        sent.body = some (.rawBody data')) := by
  have h3' : ¬ (3 ≤ amount) := by omega
  have hstr : isJStr data = false := by
    cases data <;> simp_all [truthyField, getField, isJStr]
  rw [_request, if_neg h3', _requestBuilt]
  simp only [hstr, hr, Bool.not_false, Bool.and_self]
  have hlook : List.lookup "X-Audit-Log-Reason"
      [("X-Audit-Log-Reason", encodeURIComponent (jsToStringOpt (getField data "reason")))] =
      some (encodeURIComponent (jsToStringOpt (getField data "reason"))) := by
    simp [List.lookup]
  by_cases hu : useParams = true
  · simp only [hu, if_true]
    refine ⟨_, _, rfl, ?_, ?_, ?_, ?_⟩
    · exact mergeJS_lookup_extra defaultHeaders _ _ _ hlook
    · exact getField_deleteField data "reason"
    · exact Or.inr rfl
    · exact Or.inl rfl
  · have hu' : useParams = false := by revert hu; cases useParams <;> simp
    simp only [hu', Bool.false_eq_true, if_false]
    refine ⟨_, _, rfl, ?_, ?_, ?_, ?_⟩
    · exact mergeJS_lookup_extra defaultHeaders _ _ _ hlook
    · exact getField_deleteField data "reason"
    · exact Or.inl rfl
    · split_ifs <;> simp

/-- Witness for the amended C3 at the audit-log scenario payload. -/
theorem json_reason_moved_to_audit_header_witness :
    truthyField (.jobj [("reason", .jstr "spam"), ("content", .jstr "hi")]) "reason" = true ∧
    (∃ sent data',
      _request [] "/channels/1/messages" "post"
          (.jobj [("reason", .jstr "spam"), ("content", .jstr "hi")]) false 0 = .ok (sent, data') ∧
      sent.headers.lookup "X-Audit-Log-Reason" =
        some (encodeURIComponent (jsToStringOpt
          (getField (.jobj [("reason", .jstr "spam"), ("content", .jstr "hi")]) "reason"))) ∧
      getField data' "reason" = none ∧
      (sent.query = none ∨ sent.query = some data') ∧
      (sent.body = none ∨ sent.body = some (.jsonBody data') ∨
        sent.body = some (.rawBody data'))) :=
  ⟨rfl, json_reason_moved_to_audit_header [] "/channels/1/messages" "post"
    (.jobj [("reason", .jstr "spam"), ("content", .jstr "hi")]) false 0 (by decide) rfl⟩

/-- The query/body selector is set exactly for `get` requests and endpoints
containing "/bans" or "/prune". -/
theorem useParamsFor_iff (endpoint method : String) :
    useParamsFor endpoint method = true ↔
      (method = "get" ∨ includesStr endpoint "/bans" = true ∨
        includesStr endpoint "/prune" = true) := by
  simp [useParamsFor, or_assoc]

/-- C7: for a JSON-kind send dispatched with the selector `request`
computes, the payload travels as query parameters exactly when the method
is `get` or the endpoint contains "/bans" or "/prune" (as a substring, which
is what `String.includes` tests); when it does, no body is sent, and in
particular every `get` request sends the payload as query parameters and
never as a body. -/
theorem json_query_param_selection (defaultHeaders : List (String × String))
    (endpoint method : String) (data : JVal) (amount : Nat) (h3 : amount < 3) :
    ∃ sent data',
      _request defaultHeaders endpoint method data (useParamsFor endpoint method) amount =
        .ok (sent, data') ∧
      (sent.query.isSome = true ↔
        (method = "get" ∨ includesStr endpoint "/bans" = true ∨
          includesStr endpoint "/prune" = true)) ∧
      (sent.query.isSome = true → sent.body = none) ∧
      (method = "get" → sent.query = some data' ∧ sent.body = none) := by
  have h3' : ¬ (3 ≤ amount) := by omega
  rw [_request, if_neg h3', _requestBuilt]
  by_cases hu : useParamsFor endpoint method = true
  · simp only [hu, if_true]
    refine ⟨_, _, rfl, ?_, ?_, ?_⟩
    · simpa using (useParamsFor_iff endpoint method).mp hu
    · intro _; rfl
    · intro _; exact ⟨rfl, rfl⟩
  · have hu' : useParamsFor endpoint method = false := by
      revert hu; cases useParamsFor endpoint method <;> simp
    simp only [hu', Bool.false_eq_true, if_false]
    refine ⟨_, _, rfl, ?_, ?_, ?_⟩
    · simp only [Option.isSome_none, Bool.false_eq_true, false_iff]
      intro hc
      exact hu ((useParamsFor_iff endpoint method).mpr hc)
    · intro hq; simp at hq
    · intro hm
      exact absurd ((useParamsFor_iff endpoint method).mpr (Or.inl hm)) hu

/-- Witness for C7 at the gateway `get` request. -/
theorem json_query_param_selection_witness :
    ∃ sent data',
      _request [] "/gateway" "get" (.jobj []) (useParamsFor "/gateway" "get") 0 =
        .ok (sent, data') ∧
      (sent.query.isSome = true ↔
        ("get" = "get" ∨ includesStr "/gateway" "/bans" = true ∨
          includesStr "/gateway" "/prune" = true)) ∧
      (sent.query.isSome = true → sent.body = none) ∧
      ("get" = "get" → sent.query = some data' ∧ sent.body = none) :=
  json_query_param_selection [] "/gateway" "get" (.jobj []) 0 (by decide)

/-- Sample file descriptor with name and content. -/
def fileA : JVal := .jobj [("name", .jstr "a.png"), ("file", .jstr "AAAA")]

/-- Second sample file descriptor. -/
def fileB : JVal := .jobj [("name", .jstr "b.png"), ("file", .jstr "BBBB")]

/-- A file descriptor missing its `file` content. -/
def fileNoContent : JVal := .jobj [("name", .jstr "c.png")]

/-- A multipart payload carrying two well-formed files. -/
def payloadTwoFiles : JVal :=
  .jobj [("content", .jstr "hi"), ("files", .jarr [fileA, fileB])]

/-- A multipart payload whose second file entry is malformed. -/
def payloadBadFiles : JVal :=
  .jobj [("content", .jstr "hi"), ("files", .jarr [fileA, fileNoContent])]

/-- C8: a multipart payload whose `files` array has a truthy `name` and
`file` on every entry produces a form whose entries are `files[0]`,
`files[1]`, … each carrying the entry's file content under its declared
filename, followed by a `payload_json` field holding the remaining payload,
in which every file entry has lost its raw `file` reference. -/
theorem multipart_files_appended_and_stripped (defaultHeaders : List (String × String))
    (endpoint method : String) (data : JVal) (fs : List JVal) (amount : Nat)
    (h3 : amount < 3) (hf : getField data "files" = some (.jarr fs))
    (hall : ∀ f ∈ fs, truthyField f "name" = true ∧ truthyField f "file" = true) :
    ∃ sent data',
      _multiPartRequest defaultHeaders endpoint method data amount = .ok (sent, data') ∧
      sent.body = some (.formBody
        ((fs.enum.map (fun (q : Nat × JVal) =>
          FormEntry.filePart ("files[" ++ toString q.1 ++ "]")
            (getFieldD q.2 "file") (jsToStringOpt (getField q.2 "name")))) ++
          [FormEntry.jsonPart "payload_json" data'])) ∧
      getField data' "files" = some (.jarr (fs.map (fun f => deleteField f "file"))) ∧
      (∀ f ∈ fs, getField (deleteField f "file") "file" = none) := by
  have h3' : ¬ (3 ≤ amount) := by omega
  have hallb : fs.all (fun f => truthyField f "name" && truthyField f "file") = true := by
    rw [List.all_eq_true]
    intro f hm
    simp [(hall f hm).1, (hall f hm).2]
  rw [_multiPartRequest, if_neg h3', _multiPartBuilt]
  simp only [hf, hallb, if_true]
  refine ⟨_, _, rfl, rfl, ?_, ?_⟩
  · exact getField_setField data "files" _ (by simp [hf])
  · intro f _
    exact getField_deleteField f "file"

/-- Witness for C8 at a two-file payload. -/
theorem multipart_files_appended_and_stripped_witness :
    (∀ f ∈ [fileA, fileB], truthyField f "name" = true ∧ truthyField f "file" = true) ∧
    (∃ sent data',
      _multiPartRequest [] "/channels/1/messages" "post" payloadTwoFiles 0 = .ok (sent, data') ∧
      sent.body = some (.formBody
        (([fileA, fileB].enum.map (fun (q : Nat × JVal) =>
          FormEntry.filePart ("files[" ++ toString q.1 ++ "]")
            (getFieldD q.2 "file") (jsToStringOpt (getField q.2 "name")))) ++
          [FormEntry.jsonPart "payload_json" data'])) ∧
      getField data' "files" =
        some (.jarr ([fileA, fileB].map (fun f => deleteField f "file"))) ∧
      (∀ f ∈ [fileA, fileB], getField (deleteField f "file") "file" = none)) :=
  ⟨by decide, multipart_files_appended_and_stripped [] "/channels/1/messages" "post"
    payloadTwoFiles [fileA, fileB] 0 (by decide) rfl (by decide)⟩

/-- C10: when any entry of the `files` array lacks a truthy `name` or a
truthy `file`, the guard's `every` fails for the whole array: no `files[i]`
field is appended for any entry, nothing is deleted, and the `payload_json`
field carries the payload unchanged — every raw file reference included. -/
theorem multipart_invalid_files_all_or_nothing (defaultHeaders : List (String × String))
    (endpoint method : String) (data : JVal) (fs : List JVal) (f0 : JVal) (amount : Nat)
    (h3 : amount < 3) (hf : getField data "files" = some (.jarr fs))
    (hmem : f0 ∈ fs)
    (hbad : (truthyField f0 "name" && truthyField f0 "file") = false) :
    ∃ sent,
      _multiPartRequest defaultHeaders endpoint method data amount = .ok (sent, data) ∧
      sent.body = some (.formBody [FormEntry.jsonPart "payload_json" data]) := by
  have h3' : ¬ (3 ≤ amount) := by omega
  have hallb : fs.all (fun f => truthyField f "name" && truthyField f "file") = false := by
    cases hc : fs.all (fun f => truthyField f "name" && truthyField f "file")
    · rfl
    · rw [List.all_eq_true] at hc
      have hx := hc f0 hmem
      rw [hbad] at hx
      exact Bool.noConfusion hx
  rw [_multiPartRequest, if_neg h3', _multiPartBuilt]
  simp only [hf, hallb, Bool.false_eq_true, if_false]
  exact ⟨_, rfl, rfl⟩

/-- Witness for C10 at a payload whose second file entry has no content. -/
theorem multipart_invalid_files_all_or_nothing_witness :
    (truthyField fileNoContent "name" && truthyField fileNoContent "file") = false ∧
    (∃ sent,
      _multiPartRequest [] "/channels/1/messages" "post" payloadBadFiles 0 = .ok (sent, payloadBadFiles) ∧
      sent.body = some (.formBody [FormEntry.jsonPart "payload_json" payloadBadFiles])) :=
  ⟨by decide, multipart_invalid_files_all_or_nothing [] "/channels/1/messages" "post"
    payloadBadFiles [fileA, fileNoContent] fileNoContent 0 (by decide) rfl
    (List.Mem.tail fileA (List.Mem.head [])) (by decide)⟩

/-- C9: for a success-status response, a parseable JSON body resolves the
dispatch with the parsed value, while a missing body or a body that fails
to parse resolves it with `undefined` — a parse failure on a success
response is never surfaced as an error. -/
theorem success_body_decoding (defaultHeaders : List (String × String))
    (endpoint method dataType : String) (data : JVal) (amount : Nat)
    (s : Nat) (ct : Bool) (b : RespBody) (rest : List Response)
    (hdt : dataType = "json" ∨ dataType = "multipart")
    (h3 : amount < 3) (hok : okStatus s = true) :
    ∃ sent,
      request defaultHeaders endpoint method dataType data amount
        ({ statusCode := s, contentTypeJson := ct, body := b } :: rest) =
      ((match b with
        | .parsedJson v => Outcome.resolvedJson v
        | _ => Outcome.resolvedUndefined), [sent]) := by
  have h3' : ¬ (3 ≤ amount) := by omega
  have hsb : 200 ≤ s ∧ s ≤ 299 := by simpa [okStatus] using hok
  have hne429 : (s == 429) = false := by
    cases hq : s == 429
    · rfl
    · have hx : s = 429 := by simpa using hq
      omega
  have hne502 : (s == 502) = false := by
    cases hq : s == 502
    · rfl
    · have hx : s = 502 := by simpa using hq
      omega
  rcases hdt with h | h <;> subst h <;> rw [request.eq_def] <;>
    cases b <;>
      simp [h3', hne429, hne502, hok, _request, _multiPartRequest]

/-- Witness for C9 at the gateway scenario: status 200 with a JSON body. -/
theorem success_body_decoding_witness :
    okStatus 200 = true ∧
    (∃ sent, request [] "/gateway" "get" "json" (.jobj []) 0 [resp200] =
      (Outcome.resolvedJson (.jobj [("url", .jstr "wss://x")]), [sent])) :=
  ⟨rfl, success_body_decoding [] "/gateway" "get" "json" (.jobj []) 0 200 true
    (.parsedJson (.jobj [("url", .jstr "wss://x")])) [] (Or.inl rfl) (by decide) rfl⟩

end SnowTransfer
